import Mathlib

/-!
Shallow embedding of the sampling-and-derivation core of src/bruh2.c
(a terminal system monitor).  C doubles are modelled as rationals; C
unsigned 64-bit arithmetic is modelled as natural numbers with explicit
reduction modulo 2^64 where the code can wrap; the sequence of signals a
routine sends is returned as an explicit list, with the outcome of each
signal send supplied by an oracle function.
-/

namespace Bruh2

/-- Tunable MAX_CORES (bruh2.c line 23). -/
def MAX_CORES : Nat := 128

/-- Tunable MAX_PROCS (bruh2.c line 24). -/
def MAX_PROCS : Nat := 2048

/-- Tunable HIST_W, the history-ring capacity (bruh2.c line 26). -/
def HIST_W : Nat := 120

/-- 2^64, the modulus of C unsigned long long arithmetic. -/
def U64 : Nat := 2 ^ 64

/-- Subtraction of C unsigned long long values: a - b modulo 2^64. -/
def usub64 (a b : Nat) : Nat := (a % U64 + (U64 - b % U64)) % U64

/-- One parsed /proc/stat cpu line: the 8 tick fields read by cpu_sample
(bruh2.c lines 310-315). -/
structure CpuLine where
  user : Nat
  nice : Nat
  system : Nat
  idle : Nat
  iowait : Nat
  irq : Nat
  softirq : Nat
  steal : Nat
deriving DecidableEq

/-- The all-zero cpu line (the initial value of the static prev arrays). -/
def zeroCpuLine : CpuLine := ⟨0, 0, 0, 0, 0, 0, 0, 0⟩

instance : Inhabited CpuLine := ⟨zeroCpuLine⟩

/-- Sum of all 8 tick fields, as computed at bruh2.c line 320 (modulo 2^64
in C; the bound is applied by usub64 at the use site). -/
def lineTotal (l : CpuLine) : Nat :=
  l.user + l.nice + l.system + l.idle + l.iowait + l.irq + l.softirq + l.steal

/-- The utilization computed for one cpu line from the previous and current
readings (bruh2.c lines 320-325): dt and di use unsigned subtraction, and
use = dt > 0 ? 1 - di/dt : 0. -/
def lineUse (prev cur : CpuLine) : ℚ :=
  let dt := usub64 (lineTotal cur) (lineTotal prev)
  let di := usub64 cur.idle prev.idle
  if 0 < dt then 1 - (di : ℚ) / (dt : ℚ) else 0

/-- Persistent state of cpu_sample: the static prev-tick arrays (indexed by
line index, aggregate line at index 0) and the static `initialized` flag. -/
structure SamplerState where
  prevLines : Nat → CpuLine
  initialized : Bool

/-- Sampler state at program start: the static arrays are zero and
`initialized` is 0. -/
def samplerInit : SamplerState := ⟨fun _ => zeroCpuLine, false⟩

/-- The cpu_sample read loop (bruh2.c lines 313-350): while idx <= MAX_CORES
and lines remain, emit the utilization for line idx (0 when not yet
initialized), store the current line into the prev array at idx, advance. -/
def sampleAux (ini : Bool) : (Nat → CpuLine) → Nat → List CpuLine → List ℚ × (Nat → CpuLine)
  | prevL, _, [] => ([], prevL)
  | prevL, idx, l :: rest =>
      if idx ≤ MAX_CORES then
        let use : ℚ := if ini then lineUse (prevL idx) l else 0
        let r := sampleAux ini (Function.update prevL idx l) (idx + 1) rest
        (use :: r.1, r.2)
      else ([], prevL)

/-- One call of cpu_sample (bruh2.c lines 299-360) on the parsed cpu lines of
/proc/stat, in file order.  The returned list holds the utilizations written
to cpu.total (index 0) and cpu.core[idx-1]; the state records the updated
prev arrays and initialized = 1. -/
def cpu_sample (st : SamplerState) (lines : List CpuLine) : List ℚ × SamplerState :=
  let r := sampleAux st.initialized st.prevLines 0 lines
  (r.1, { prevLines := r.2, initialized := true })

lemma usub64_eq {a b : Nat} (hba : b ≤ a) (ha : a < U64) : usub64 a b = a - b := by
  have hb : b < U64 := lt_of_le_of_lt hba ha
  unfold usub64
  rw [Nat.mod_eq_of_lt ha, Nat.mod_eq_of_lt hb]
  have h1 : a + (U64 - b) = (a - b) + U64 := by omega
  rw [h1, Nat.add_mod_right, Nat.mod_eq_of_lt (by omega)]

lemma idle_le_lineTotal (l : CpuLine) : l.idle ≤ lineTotal l := by
  unfold lineTotal; omega

lemma sampleAux_length (ini : Bool) :
    ∀ (lines : List CpuLine) (prevL : Nat → CpuLine) (idx : Nat),
      (sampleAux ini prevL idx lines).1.length = min lines.length (MAX_CORES + 1 - idx) := by
  intro lines
  induction lines with
  | nil => intro prevL idx; simp [sampleAux]
  | cons l rest ih =>
      intro prevL idx
      by_cases h : idx ≤ MAX_CORES
      · simp only [sampleAux, if_pos h, List.length_cons]
        rw [ih]
        omega
      · simp only [sampleAux, if_neg h, List.length_cons, List.length_nil]
        omega

lemma sampleAux_getD (ini : Bool) :
    ∀ (lines : List CpuLine) (prevL : Nat → CpuLine) (idx i : Nat),
      i < (sampleAux ini prevL idx lines).1.length →
      (sampleAux ini prevL idx lines).1.getD i 0 =
        if ini then lineUse (prevL (idx + i)) (lines.getD i zeroCpuLine) else 0 := by
  intro lines
  induction lines with
  | nil => intro prevL idx i hi; simp [sampleAux] at hi
  | cons l rest ih =>
      intro prevL idx i hi
      by_cases h : idx ≤ MAX_CORES
      · simp only [sampleAux, if_pos h] at hi ⊢
        cases i with
        | zero => simp
        | succ i' =>
            simp only [List.getD_cons_succ, List.length_cons] at hi ⊢
            have hrec := ih (Function.update prevL idx l) (idx + 1) i' (by
              simpa using hi)
            rw [hrec]
            have hne : idx ≠ idx + 1 + i' := by omega
            rw [Function.update_noteq (by omega)]
            have harith : idx + 1 + i' = idx + (i' + 1) := by omega
            rw [harith]
      · simp [sampleAux, if_neg h] at hi

/-- C1: for every CPU line (aggregate and per-core) consumed by cpu_sample
after the first sample, assuming monotone counters that fit in 64 bits, the
emitted utilization is 1 - idleDelta/totalDelta when totalDelta > 0 and 0
otherwise, where totalDelta is the difference of the sums of all 8 tick
fields and idleDelta the difference of the idle fields. -/
theorem c1_cpu_utilization_formula (st : SamplerState) (lines : List CpuLine) (i : Nat)
    (hini : st.initialized = true)
    (hi : i < (cpu_sample st lines).1.length)
    (hmono_total : lineTotal (st.prevLines i) ≤ lineTotal (lines.getD i zeroCpuLine))
    (hmono_idle : (st.prevLines i).idle ≤ (lines.getD i zeroCpuLine).idle)
    (hbound : lineTotal (lines.getD i zeroCpuLine) < U64) :
    (cpu_sample st lines).1.getD i 0 =
      if 0 < lineTotal (lines.getD i zeroCpuLine) - lineTotal (st.prevLines i) then
        1 - (((lines.getD i zeroCpuLine).idle - (st.prevLines i).idle : Nat) : ℚ)
              / ((lineTotal (lines.getD i zeroCpuLine) - lineTotal (st.prevLines i) : Nat) : ℚ)
      else 0 := by
  have hget := sampleAux_getD st.initialized lines st.prevLines 0 i (by
    simpa [cpu_sample] using hi)
  have hcur : (lines.getD i zeroCpuLine).idle < U64 :=
    lt_of_le_of_lt (idle_le_lineTotal _) hbound
  simp only [cpu_sample]
  rw [hget, hini, if_pos rfl]
  simp only [Nat.zero_add]
  unfold lineUse
  rw [usub64_eq hmono_total hbound, usub64_eq hmono_idle hcur]

/-- The previous reading of the scenario in C1. -/
def clPrev : CpuLine := ⟨100, 0, 100, 800, 0, 0, 0, 0⟩

/-- The current reading of the scenario in C1. -/
def clCur : CpuLine := ⟨150, 0, 120, 850, 0, 0, 0, 0⟩

/-- Sampler state holding the previous reading of the C1 scenario. -/
def stC1 : SamplerState := ⟨fun _ => clPrev, true⟩

/-- C1 witness: the scenario prev = cpu 100 0 100 800 0 0 0 0 and
cur = cpu 150 0 120 850 0 0 0 0 yields utilization 1 - 50/120 = 7/12. -/
theorem c1_witness : (cpu_sample stC1 [clCur]).1.getD 0 0 = 7 / 12 := by
  have h := c1_cpu_utilization_formula stC1 [clCur] 0 rfl
    (by simp [cpu_sample, sampleAux_length, MAX_CORES])
    (by decide) (by decide) (by decide)
  rw [h]
  norm_num [stC1, clCur, clPrev, lineTotal, zeroCpuLine]

/-- C7: on the very first sample after process start (no previous tuple),
cpu_sample emits 0 for the aggregate and for every per-core utilization:
the emitted list is all zeros, one per consumed line (capped at
MAX_CORES + 1 lines). -/
theorem c7_first_sample_emits_zero (lines : List CpuLine) :
    (cpu_sample samplerInit lines).1 =
      List.replicate (min lines.length (MAX_CORES + 1)) 0 := by
  have haux : ∀ (ls : List CpuLine) (prevL : Nat → CpuLine) (idx : Nat),
      (sampleAux false prevL idx ls).1 =
        List.replicate (min ls.length (MAX_CORES + 1 - idx)) (0 : ℚ) := by
    intro ls
    induction ls with
    | nil => intro prevL idx; simp [sampleAux]
    | cons l rest ih =>
        intro prevL idx
        by_cases h : idx ≤ MAX_CORES
        · simp only [sampleAux, if_pos h]
          rw [ih]
          have hmin : min (l :: rest).length (MAX_CORES + 1 - idx) =
              min rest.length (MAX_CORES + 1 - (idx + 1)) + 1 := by
            simp only [List.length_cons]; omega
          rw [hmin, List.replicate_succ]
          simp
        · have hmin : min (l :: rest).length (MAX_CORES + 1 - idx) = 0 := by
            simp only [List.length_cons]; omega
          rw [hmin]
          simp [sampleAux, if_neg h]
  simp only [cpu_sample, samplerInit]
  rw [haux]
  norm_num

/-- The clamp applied before a history write (bruh2.c lines 289-293):
usage is raised to 0 and lowered to 1. -/
def clamp01 (x : ℚ) : ℚ := if x < 0 then 0 else if x > 1 then 1 else x

/-- The per-core utilization history rings hist_cpu plus the shared write
cursor hpos (bruh2.c lines 284-285). -/
structure HistState where
  hist : Nat → Nat → ℚ
  hpos : Nat

/-- History state at program start: the static arrays are zero, hpos = 0. -/
def histInit : HistState := ⟨fun _ _ => 0, 0⟩

/-- One call of push_hist (bruh2.c lines 287-297) given the list of current
per-core utilizations cpu.core[0..ncores): each ring i gets the clamped
value written at the shared cursor, then the cursor advances once,
modulo HIST_W. -/
def push_hist (cores : List ℚ) (st : HistState) : HistState :=
  { hist := fun i j =>
      if i < cores.length ∧ j = st.hpos then clamp01 (cores.getD i 0) else st.hist i j,
    hpos := (st.hpos + 1) % HIST_W }

/-- A whole run of sampling ticks: fold push_hist over the successive
per-core utilization lists. -/
def pushMany (css : List (List ℚ)) (st : HistState) : HistState :=
  css.foldl (fun s cs => push_hist cs s) st

/-- The C8 invariant: the shared cursor is inside [0, HIST_W) and every
stored sample is inside [0, 1]. -/
def HistInv (st : HistState) : Prop :=
  st.hpos < HIST_W ∧ ∀ i j, 0 ≤ st.hist i j ∧ st.hist i j ≤ 1

lemma clamp01_mem (x : ℚ) : 0 ≤ clamp01 x ∧ clamp01 x ≤ 1 := by
  unfold clamp01
  split_ifs with h1 h2
  · exact ⟨le_refl 0, by norm_num⟩
  · exact ⟨by norm_num, le_refl 1⟩
  · exact ⟨le_of_not_lt h1, le_of_not_lt h2⟩

lemma push_hist_inv {st : HistState} (cs : List ℚ) (h : HistInv st) :
    HistInv (push_hist cs st) := by
  constructor
  · exact Nat.mod_lt _ (by norm_num [HIST_W])
  · intro i j
    simp only [push_hist]
    split_ifs with hc
    · exact clamp01_mem _
    · exact h.2 i j

lemma histInit_inv : HistInv histInit := by
  constructor
  · norm_num [histInit, HIST_W]
  · intro i j; simp [histInit]

lemma pushMany_inv (css : List (List ℚ)) {st : HistState} (h : HistInv st) :
    HistInv (pushMany css st) := by
  induction css generalizing st with
  | nil => exact h
  | cons cs rest ih => exact ih (push_hist_inv cs h)

/-- C8: after any sequence of sampling ticks, every value stored in the
per-core history rings lies in [0, 1] and the shared cursor is inside
[0, HIST_W); one further push advances the cursor exactly once modulo
HIST_W, overwrites the cell at the old cursor in each active ring with the
clamped new sample, and leaves every other cell unchanged. -/
theorem c8_history_ring_invariants (css : List (List ℚ)) (cs : List ℚ) :
    HistInv (pushMany css histInit)
    ∧ (push_hist cs (pushMany css histInit)).hpos =
        ((pushMany css histInit).hpos + 1) % HIST_W
    ∧ HistInv (push_hist cs (pushMany css histInit))
    ∧ (∀ i, i < cs.length →
        (push_hist cs (pushMany css histInit)).hist i (pushMany css histInit).hpos
          = clamp01 (cs.getD i 0))
    ∧ (∀ i j, ¬(i < cs.length ∧ j = (pushMany css histInit).hpos) →
        (push_hist cs (pushMany css histInit)).hist i j
          = (pushMany css histInit).hist i j) := by
  have hinv : HistInv (pushMany css histInit) := pushMany_inv css histInit_inv
  refine ⟨hinv, rfl, push_hist_inv cs hinv, ?_, ?_⟩
  · intro i hi
    simp [push_hist, hi]
  · intro i j hij
    simp only [push_hist]
    rw [if_neg hij]

/-- C8 witness: pushing the single-core sample 3/2 into the empty history
writes clamp01 (3/2) = 1 at the old cursor of ring 0. -/
theorem c8_witness :
    (push_hist [(3 : ℚ)/2] (pushMany [] histInit)).hist 0 (pushMany [] histInit).hpos
      = 1 := by
  have h := (c8_history_ring_invariants [] [(3 : ℚ)/2]).2.2.2.1 0 (by norm_num)
  rw [h]
  norm_num [clamp01]

/-- The per-process data read from /proc/PID/{comm,stat,status} during one
scan (bruh2.c lines 590-594): only the PIDs whose comm and stat reads both
succeed appear; vanished processes are silently skipped. -/
structure Reading where
  pid : Nat
  comm : List Char
  ut : Nat
  st : Nat
  nicev : Int
  running : Bool
  uid : Nat
  rss_kb : Nat
deriving DecidableEq

instance : Inhabited Reading := ⟨⟨0, [], 0, 0, 0, true, 0, 0⟩⟩

/-- The PInfo record of the process table (bruh2.c lines 431-441). -/
structure PInfo where
  pid : Nat
  uid : Nat
  comm : List Char
  ut : Nat
  st : Nat
  cpu_pct : ℚ
  rss_kb : Nat
  nicev : Int
  running : Bool
  suspended_by_manager : Bool
deriving DecidableEq

instance : Inhabited PInfo := ⟨⟨0, 0, [], 0, 0, 0, 0, 0, true, false⟩⟩

/-- Building one table entry in scan_processes (bruh2.c lines 583-609):
fields come from the reading, cpu_pct defaults to 0 and
suspended_by_manager to false; if the same PID is found in the previous
table, the tick deltas (each floored at 0) are converted to milliseconds
with the clock-ticks-per-second constant tps, cpu_pct is the millisecond
value times 100 over the elapsed time, and suspended_by_manager is copied
from the previous record. -/
def mkProc (prevT : List PInfo) (tdiff : Int) (tps : Nat) (r : Reading) : PInfo :=
  let base : PInfo :=
    { pid := r.pid, uid := r.uid, comm := r.comm, ut := r.ut, st := r.st,
      cpu_pct := 0, rss_kb := r.rss_kb, nicev := r.nicev, running := r.running,
      suspended_by_manager := false }
  match prevT.find? (fun q => q.pid == r.pid) with
  | none => base
  | some q =>
      let dut : Nat := if r.ut > q.ut then r.ut - q.ut else 0
      let dst : Nat := if r.st > q.st then r.st - q.st else 0
      let cpu_time_ms : ℚ := ((dut + dst : Nat) : ℚ) * 1000 / (tps : ℚ)
      { base with
        cpu_pct := if tdiff > 0 then cpu_time_ms * 100 / (tdiff : ℚ) else 0,
        suspended_by_manager := q.suspended_by_manager }

/-- Persistent state of scan_processes: the static previous table and the
previous scan's wall-clock time (bruh2.c lines 562-564). -/
structure ScanState where
  prev : List PInfo
  prev_time_ms : Int

/-- Scanner state at program start: empty previous table, no previous time. -/
def scanInit : ScanState := ⟨[], 0⟩

/-- One call of scan_processes (bruh2.c lines 561-618) given the successful
readings in directory order: the elapsed time falls back to 1500 ms on the
first scan, the table is rebuilt from at most MAX_PROCS readings, and the
previous table and time are replaced at the end. -/
def scan_processes (tps : Nat) (st : ScanState) (now : Int) (rs : List Reading) :
    List PInfo × ScanState :=
  let tdiff : Int := if st.prev_time_ms > 0 then now - st.prev_time_ms else 1500
  let tbl := (rs.take MAX_PROCS).map (mkProc st.prev tdiff tps)
  (tbl, { prev := tbl, prev_time_ms := now })

lemma mkProc_pid (prevT : List PInfo) (tdiff : Int) (tps : Nat) (r : Reading) :
    (mkProc prevT tdiff tps r).pid = r.pid := by
  unfold mkProc
  cases prevT.find? (fun q => q.pid == r.pid) <;> rfl

/-- C2: a process present in both the previous and the current scan, with a
positive elapsed time and a positive clock-ticks-per-second constant, gets
a table entry whose cpu_pct is the 0-floored tick deltas summed, converted
to milliseconds, times 100 over the elapsed time, and that value is
nonnegative (it is a rational, hence finite). -/
theorem c2_cpu_percent_formula (tps : Nat) (st : ScanState) (now : Int)
    (rs : List Reading) (r : Reading) (q : PInfo)
    (hmem : r ∈ rs.take MAX_PROCS)
    (hfind : st.prev.find? (fun x => x.pid == r.pid) = some q)
    (htd : 0 < (if st.prev_time_ms > 0 then now - st.prev_time_ms else 1500))
    (htps : 0 < tps) :
    mkProc st.prev (if st.prev_time_ms > 0 then now - st.prev_time_ms else 1500) tps r
        ∈ (scan_processes tps st now rs).1
    ∧ (mkProc st.prev (if st.prev_time_ms > 0 then now - st.prev_time_ms else 1500)
          tps r).cpu_pct =
        (((if r.ut > q.ut then r.ut - q.ut else 0)
            + (if r.st > q.st then r.st - q.st else 0) : Nat) : ℚ)
          * 1000 / (tps : ℚ) * 100
          / (((if st.prev_time_ms > 0 then now - st.prev_time_ms else 1500) : Int) : ℚ)
    ∧ 0 ≤ (mkProc st.prev (if st.prev_time_ms > 0 then now - st.prev_time_ms else 1500)
          tps r).cpu_pct := by
  set tdiff : Int := if st.prev_time_ms > 0 then now - st.prev_time_ms else 1500 with htdiff
  have hmm : mkProc st.prev tdiff tps r ∈ (scan_processes tps st now rs).1 := by
    simp only [scan_processes]
    exact List.mem_map_of_mem _ hmem
  have hpct : (mkProc st.prev tdiff tps r).cpu_pct =
      (((if r.ut > q.ut then r.ut - q.ut else 0)
          + (if r.st > q.st then r.st - q.st else 0) : Nat) : ℚ)
        * 1000 / (tps : ℚ) * 100 / ((tdiff : Int) : ℚ) := by
    unfold mkProc
    rw [hfind]
    simp only [if_pos htd]
  refine ⟨hmm, hpct, ?_⟩
  rw [hpct]
  have htdq : (0 : ℚ) < ((tdiff : Int) : ℚ) := by
    exact_mod_cast htd
  have htpsq : (0 : ℚ) < (tps : ℚ) := by exact_mod_cast htps
  apply div_nonneg _ (le_of_lt htdq)
  apply mul_nonneg _ (by norm_num)
  apply div_nonneg _ (le_of_lt htpsq)
  apply mul_nonneg (Nat.cast_nonneg _) (by norm_num)

/-- The previous-scan record of the C2 scenario: utime 1000, stime 200. -/
def qC2 : PInfo :=
  { pid := 7, uid := 1000, comm := ['a'], ut := 1000, st := 200,
    cpu_pct := 0, rss_kb := 100, nicev := 0, running := true,
    suspended_by_manager := false }

/-- The current-scan reading of the C2 scenario: utime 1050, stime 230. -/
def rC2 : Reading :=
  ⟨7, ['a'], 1050, 230, 0, true, 1000, 100⟩

/-- Scanner state holding the C2 scenario's previous table, scanned 1500 ms
before the current scan. -/
def stC2 : ScanState := ⟨[qC2], 1000⟩

/-- C2 witness: the scenario utime 1000→1050, stime 200→230, elapsed 1500 ms,
100 ticks per second yields cpu_pct = 80 * 1000 / 100 * 100 / 1500 = 160/3,
and the entry is in the scanned table. -/
theorem c2_witness :
    mkProc stC2.prev (if stC2.prev_time_ms > 0 then 2500 - stC2.prev_time_ms else 1500)
        100 rC2 ∈ (scan_processes 100 stC2 2500 [rC2]).1
    ∧ (mkProc stC2.prev (if stC2.prev_time_ms > 0 then 2500 - stC2.prev_time_ms else 1500)
        100 rC2).cpu_pct = 160 / 3 := by
  have h := c2_cpu_percent_formula 100 stC2 2500 [rC2] rC2 qC2
    (by norm_num [MAX_PROCS]) (by norm_num [stC2, qC2, rC2, List.find?]) (by norm_num [stC2])
    (by norm_num)
  refine ⟨h.1, ?_⟩
  rw [h.2.1]
  norm_num [rC2, qC2, stC2]

/-- C6: a PID observed in a scan but absent from the previous scan's table
gets cpu_pct = 0; equivalently a nonzero cpu_pct needs the PID in two
successive scans. -/
theorem c6_new_pid_zero_cpu (tps : Nat) (st : ScanState) (now : Int)
    (rs : List Reading) (p : PInfo)
    (hp : p ∈ (scan_processes tps st now rs).1)
    (hnew : ∀ q ∈ st.prev, q.pid ≠ p.pid) :
    p.cpu_pct = 0 := by
  simp only [scan_processes, List.mem_map] at hp
  obtain ⟨r, hr, hpr⟩ := hp
  subst hpr
  have hpid := mkProc_pid st.prev
    (if st.prev_time_ms > 0 then now - st.prev_time_ms else 1500) tps r
  cases hfind : st.prev.find? (fun q => q.pid == r.pid) with
  | none =>
      unfold mkProc
      rw [hfind]
  | some q =>
      exfalso
      have hqmem : q ∈ st.prev := List.mem_of_find?_eq_some hfind
      have hq2 := List.find?_some hfind
      simp only [beq_iff_eq] at hq2
      exact hnew q hqmem (by rw [hpid]; exact hq2)

/-- A first-scan reading for the C6 witness. -/
def rC6 : Reading := ⟨42, ['b'], 500, 60, 0, true, 1000, 100⟩

/-- C6 witness: scanning rC6 against the empty start state yields a record
with cpu_pct = 0. -/
theorem c6_witness :
    (mkProc [] (if (0 : Int) > 0 then 2500 - 0 else 1500) 100 rC6).cpu_pct = 0 := by
  apply c6_new_pid_zero_cpu 100 scanInit 2500 [rC6]
  · simp [scan_processes, scanInit, MAX_PROCS]
  · intro q hq
    simp [scanInit] at hq

/-- Initial-segment test on character lists: true when the first list is an
initial segment of the second. -/
def leadsB : List Char → List Char → Bool
  | [], _ => true
  | _ :: _, [] => false
  | a :: as, b :: bs => a == b && leadsB as bs

/-- Substring occurrence test, the model of C strstr(hay, needle) != NULL:
true when the needle occurs contiguously in the hay. -/
def hasSubB (needle : List Char) : List Char → Bool
  | [] => leadsB needle []
  | c :: rest => leadsB needle (c :: rest) || hasSubB needle rest

/-- is_priority_proc (bruh2.c lines 620-626): some priority entry occurs as
a substring of the command name. -/
def is_priority_proc (plist : List (List Char)) (comm : List Char) : Bool :=
  plist.any fun s => hasSubB s comm

/-- The fixed protected-name list of is_system_critical
(bruh2.c lines 629-694). -/
def criticalNames : List (List Char) :=
  ["systemd", "init", "kernel", "kthread", "ksoftirq", "kworker", "Xorg", "X",
   "wayland", "sway", "gnome-shell", "kwin", "mutter", "plasmashell", "xfwm4",
   "openbox", "i3", "dwm", "awesome", "gdm", "sddm", "lightdm", "login",
   "getty", "pulseaudio", "pipewire", "wireplumber", "alsa", "NetworkManager",
   "wpa_supplicant", "dhclient", "dhcpcd", "dbus", "dbus-daemon", "systemd-",
   "udevd", "upowerd", "polkitd", "rtkit", "accounts-daemon", "udisksd",
   "bluetoothd", "cupsd", "avahi", "ssh", "sshd", "cron", "crond", "atd",
   "rsyslogd", "syslog", "journald", "dockerd", "containerd", "kubelet",
   "libvirtd", "virtlogd", "qemu", "xfce4-session", "mate-session",
   "cinnamon-session", "lxsession", "lxqt-session", "gnome-session",
   "kde-session"].map String.toList

/-- is_system_critical (bruh2.c lines 628-702): some protected name occurs
as a substring of the command name. -/
def is_system_critical (comm : List Char) : Bool :=
  criticalNames.any fun s => hasSubB s comm

/-- The body of the manage_resources per-process loop (bruh2.c lines
719-735) for one process: the checks in source order (priority match,
system-critical, root uid, then threshold with running and
not-already-suspended), returning the updated record and whether a stop
signal was issued; the flag is set only when the kill send (outcome given
by the oracle killOk) succeeds. -/
def manage_one (plist : List (List Char)) (killOk : Nat → Bool) (p : PInfo) :
    PInfo × Bool :=
  if is_priority_proc plist p.comm then (p, false)
  else if is_system_critical p.comm then (p, false)
  else if p.uid = 0 then (p, false)
  else if (p.cpu_pct > 10 ∨ p.rss_kb > 500000) ∧ p.running = true
      ∧ p.suspended_by_manager = false then
    if killOk p.pid then ({ p with suspended_by_manager := true }, true)
    else (p, true)
  else (p, false)

/-- One call of manage_resources (bruh2.c lines 704-736): no action unless
auto-management is enabled and some running process matches the priority
list; otherwise every process is put through manage_one.  Returns the
updated table and the pids that were sent a stop signal. -/
def manage_resources (plist : List (List Char)) (enabled : Bool)
    (killOk : Nat → Bool) (tbl : List PInfo) : List PInfo × List Nat :=
  if enabled = false then (tbl, [])
  else if (tbl.any fun p => is_priority_proc plist p.comm && p.running) = false then
    (tbl, [])
  else
    ((tbl.map fun p => (manage_one plist killOk p).1),
     ((tbl.filter fun p => (manage_one plist killOk p).2).map fun p => p.pid))

/-- resume_suspended (bruh2.c lines 738-745): every flagged process is sent
a continue signal and has the flag cleared.  Returns the updated table and
the pids that were sent the continue signal. -/
def resume_suspended (tbl : List PInfo) : List PInfo × List Nat :=
  ((tbl.map fun p =>
      if p.suspended_by_manager then { p with suspended_by_manager := false } else p),
   ((tbl.filter fun p => p.suspended_by_manager).map fun p => p.pid))

/-- One policy pass as driven by the main loop: the priority list, the
enabled flag and the kill-send outcomes in effect during that pass. -/
structure Pass where
  plist : List (List Char)
  enabled : Bool
  killOk : Nat → Bool

/-- A sequence of policy passes applied to a table. -/
def managePasses (ps : List Pass) (tbl : List PInfo) : List PInfo :=
  ps.foldl (fun t pr => (manage_resources pr.plist pr.enabled pr.killOk t).1) tbl

lemma manage_one_protected (plist : List (List Char)) (killOk : Nat → Bool)
    (p : PInfo) (h : p.uid = 0 ∨ is_system_critical p.comm = true) :
    (manage_one plist killOk p).1 = p := by
  unfold manage_one
  split_ifs with h1 h2 h3 h4 h5
  · rfl
  · rfl
  · rfl
  · exfalso
    rcases h with h0 | h0
    · exact h3 h0
    · exact h2 h0
  · rfl
  · rfl

lemma manage_one_uid (plist : List (List Char)) (killOk : Nat → Bool) (p : PInfo) :
    (manage_one plist killOk p).1.uid = p.uid := by
  unfold manage_one
  split_ifs <;> rfl

lemma manage_one_comm (plist : List (List Char)) (killOk : Nat → Bool) (p : PInfo) :
    (manage_one plist killOk p).1.comm = p.comm := by
  unfold manage_one
  split_ifs <;> rfl

lemma manage_resources_protected (plist : List (List Char)) (e : Bool)
    (killOk : Nat → Bool) (tbl : List PInfo)
    (h0 : ∀ p ∈ tbl, (p.uid = 0 ∨ is_system_critical p.comm = true) →
      p.suspended_by_manager = false) :
    ∀ p ∈ (manage_resources plist e killOk tbl).1,
      (p.uid = 0 ∨ is_system_critical p.comm = true) →
        p.suspended_by_manager = false := by
  intro p' hp' hprot
  unfold manage_resources at hp'
  split_ifs at hp' with h1 h2
  · exact h0 p' hp' hprot
  · exact h0 p' hp' hprot
  · simp only [List.mem_map] at hp'
    obtain ⟨p, hp, hpe⟩ := hp'
    subst hpe
    have hprot' : p.uid = 0 ∨ is_system_critical p.comm = true := by
      rcases hprot with h | h
      · left; rw [← manage_one_uid plist killOk p]; exact h
      · right; rw [← manage_one_comm plist killOk p]; exact h
    rw [manage_one_protected plist killOk p hprot']
    exact h0 p hp hprot'

/-- C3: over every policy pass, a root-owned (uid 0) process or one whose
command name matches the protected system-critical list is never marked
suspended-by-policy, regardless of its resource usage: if no protected
process in the table carries the flag, none does after any sequence of
passes. -/
theorem c3_protected_never_suspended (ps : List Pass) (tbl : List PInfo)
    (h0 : ∀ p ∈ tbl, (p.uid = 0 ∨ is_system_critical p.comm = true) →
      p.suspended_by_manager = false) :
    ∀ p ∈ managePasses ps tbl,
      (p.uid = 0 ∨ is_system_critical p.comm = true) →
        p.suspended_by_manager = false := by
  induction ps generalizing tbl with
  | nil => exact h0
  | cons pr rest ih =>
      exact ih (manage_resources pr.plist pr.enabled pr.killOk tbl).1
        (manage_resources_protected pr.plist pr.enabled pr.killOk tbl h0)

/-- A running priority process for the C3 witness. -/
def pFfmpegC3 : PInfo :=
  { pid := 100, uid := 1000, comm := "ffmpeg".toList, ut := 0, st := 0,
    cpu_pct := 50, rss_kb := 1000, nicev := 0, running := true,
    suspended_by_manager := false }

/-- A root-owned process far above both thresholds, for the C3 witness. -/
def pRootC3 : PInfo :=
  { pid := 1, uid := 0, comm := "badproc".toList, ut := 0, st := 0,
    cpu_pct := 99, rss_kb := 999999, nicev := 0, running := true,
    suspended_by_manager := false }

/-- A policy pass with priority entry ffmpeg, auto-management enabled, and
every kill send succeeding, for the C3 witness. -/
def passC3 : Pass := ⟨["ffmpeg".toList], true, fun _ => true⟩

/-- C3 witness: with ffmpeg priority and running, the root-owned process
pRootC3 exceeding both thresholds keeps its flag false through the pass. -/
theorem c3_witness : pRootC3.suspended_by_manager = false :=
  c3_protected_never_suspended [passC3] [pFfmpegC3, pRootC3] (by decide)
    pRootC3 (by decide) (by decide)

lemma manage_one_snd (plist : List (List Char)) (killOk : Nat → Bool) (p : PInfo) :
    (manage_one plist killOk p).2 =
      (!is_priority_proc plist p.comm && !is_system_critical p.comm
        && !decide (p.uid = 0) && p.running && !p.suspended_by_manager
        && decide (p.cpu_pct > 10 ∨ p.rss_kb > 500000)) := by
  unfold manage_one
  split_ifs with h1 h2 h3 h4 h5 <;> simp_all
  intro hr hs
  have h4' := fun hc => h4 hc hr
  constructor
  · by_contra hcc
    push_neg at hcc
    exact absurd (h4' (Or.inl hcc)) (by simp [hs])
  · by_contra hcc
    push_neg at hcc
    exact absurd (h4' (Or.inr hcc)) (by simp [hs])

lemma manage_one_fst (plist : List (List Char)) (killOk : Nat → Bool) (p : PInfo) :
    (manage_one plist killOk p).1 =
      if (!is_priority_proc plist p.comm && !is_system_critical p.comm
          && !decide (p.uid = 0) && p.running && !p.suspended_by_manager
          && decide (p.cpu_pct > 10 ∨ p.rss_kb > 500000)
          && killOk p.pid) = true
      then { p with suspended_by_manager := true } else p := by
  unfold manage_one
  split_ifs with h1 h2 h3 h4 h5 <;> simp_all

/-- C5: with auto-management enabled, if some running process matches the
priority list then the pass sends a stop signal to exactly the processes
that do not match the priority list, are not system-critical, are not
root-owned, are running, are not already suspended-by-policy, and exceed a
threshold (cpu_pct > 10 or rss > 500000 kB); a process's flag becomes true
exactly when it met those conditions and its kill send succeeded.  If no
running process matches the priority list, nothing is signalled and the
table is unchanged. -/
theorem c5_policy_pass_exact (plist : List (List Char)) (killOk : Nat → Bool)
    (tbl : List PInfo) :
    ((tbl.any fun p => is_priority_proc plist p.comm && p.running) = true →
      (manage_resources plist true killOk tbl).2 =
        ((tbl.filter fun p =>
            !is_priority_proc plist p.comm && !is_system_critical p.comm
              && !decide (p.uid = 0) && p.running && !p.suspended_by_manager
              && decide (p.cpu_pct > 10 ∨ p.rss_kb > 500000)).map fun p => p.pid)
      ∧ (manage_resources plist true killOk tbl).1 =
          (tbl.map fun p =>
            if (!is_priority_proc plist p.comm && !is_system_critical p.comm
                && !decide (p.uid = 0) && p.running && !p.suspended_by_manager
                && decide (p.cpu_pct > 10 ∨ p.rss_kb > 500000)
                && killOk p.pid) = true
            then { p with suspended_by_manager := true } else p))
    ∧ ((tbl.any fun p => is_priority_proc plist p.comm && p.running) = false →
        manage_resources plist true killOk tbl = (tbl, [])) := by
  constructor
  · intro h
    have heq : manage_resources plist true killOk tbl =
        ((tbl.map fun p => (manage_one plist killOk p).1),
         ((tbl.filter fun p => (manage_one plist killOk p).2).map fun p => p.pid)) := by
      unfold manage_resources
      rw [if_neg (by simp), if_neg (by simp [h])]
    have e1 : (fun p => (manage_one plist killOk p).1) =
        (fun p : PInfo =>
          if (!is_priority_proc plist p.comm && !is_system_critical p.comm
              && !decide (p.uid = 0) && p.running && !p.suspended_by_manager
              && decide (p.cpu_pct > 10 ∨ p.rss_kb > 500000)
              && killOk p.pid) = true
          then { p with suspended_by_manager := true } else p) :=
      funext (manage_one_fst plist killOk)
    have e2 : (fun p => (manage_one plist killOk p).2) =
        (fun p : PInfo =>
          !is_priority_proc plist p.comm && !is_system_critical p.comm
            && !decide (p.uid = 0) && p.running && !p.suspended_by_manager
            && decide (p.cpu_pct > 10 ∨ p.rss_kb > 500000)) :=
      funext (manage_one_snd plist killOk)
    rw [heq, e1, e2]
    exact ⟨rfl, rfl⟩
  · intro h
    unfold manage_resources
    rw [if_neg (by simp), if_pos h]

/-- The running priority process of the C5 witness scenario. -/
def pFfmpegC5 : PInfo :=
  { pid := 100, uid := 1000, comm := "ffmpeg".toList, ut := 0, st := 0,
    cpu_pct := 5, rss_kb := 1000, nicev := 0, running := true,
    suspended_by_manager := false }

/-- The non-root, non-critical process at 15% cpu of the C5 witness. -/
def pChromeC5 : PInfo :=
  { pid := 200, uid := 1000, comm := "chrome".toList, ut := 0, st := 0,
    cpu_pct := 15, rss_kb := 100000, nicev := 0, running := true,
    suspended_by_manager := false }

/-- The priority list of the C5 witness scenario. -/
def plistC5 : List (List Char) := ["ffmpeg".toList]

/-- C5 witness: with ffmpeg priority and running and every kill send
succeeding, exactly chrome (pid 200) is signalled and gets the flag. -/
theorem c5_witness :
    (manage_resources plistC5 true (fun _ => true) [pFfmpegC5, pChromeC5]).2 = [200]
    ∧ (manage_resources plistC5 true (fun _ => true) [pFfmpegC5, pChromeC5]).1 =
        [pFfmpegC5, { pChromeC5 with suspended_by_manager := true }] := by
  have h := (c5_policy_pass_exact plistC5 (fun _ => true) [pFfmpegC5, pChromeC5]).1
    (by decide)
  constructor
  · rw [h.1]; decide
  · rw [h.2]; decide

/-- The auto-management flag together with the process table it governs. -/
structure AMState where
  enabled : Bool
  procs : List PInfo

/-- The 'T' key handler of the resource-manager page (bruh2.c lines
1709-1713): flip the flag, and when the new value is false immediately run
resume_suspended — one logical action.  Returns the new state and the pids
sent a continue signal. -/
def toggle_auto_manage (s : AMState) : AMState × List Nat :=
  let e := !s.enabled
  if e = false then
    let r := resume_suspended s.procs
    ({ enabled := e, procs := r.1 }, r.2)
  else
    ({ enabled := e, procs := s.procs }, [])

lemma resume_suspended_clears (tbl : List PInfo) :
    ∀ p ∈ (resume_suspended tbl).1, p.suspended_by_manager = false := by
  intro p hp
  simp only [resume_suspended, List.mem_map] at hp
  obtain ⟨q, hq, hqe⟩ := hp
  subst hqe
  by_cases h : q.suspended_by_manager = true
  · simp [h]
  · simp only [Bool.not_eq_true] at h
    simp [h]

/-- C4: disabling auto-management from the enabled state resumes everything
atomically with the flag flip: afterwards the flag is off, every table
entry has suspended_by_manager = false (so the count of flagged entries is
zero), and every previously flagged process was sent a continue signal. -/
theorem c4_disable_resumes_all (s : AMState) (h : s.enabled = true) :
    (toggle_auto_manage s).1.enabled = false
    ∧ (∀ p ∈ (toggle_auto_manage s).1.procs, p.suspended_by_manager = false)
    ∧ ((toggle_auto_manage s).1.procs.filter fun p => p.suspended_by_manager).length = 0
    ∧ (∀ p ∈ s.procs, p.suspended_by_manager = true →
        p.pid ∈ (toggle_auto_manage s).2) := by
  have htog : toggle_auto_manage s =
      ({ enabled := false, procs := (resume_suspended s.procs).1 },
       (resume_suspended s.procs).2) := by
    unfold toggle_auto_manage
    rw [h]
    rfl
  rw [htog]
  refine ⟨rfl, resume_suspended_clears s.procs, ?_, ?_⟩
  · rw [List.length_eq_zero]
    rw [List.filter_eq_nil_iff]
    intro p hp
    simp [resume_suspended_clears s.procs p hp]
  · intro p hp hflag
    simp only [resume_suspended]
    exact List.mem_map_of_mem _ (List.mem_filter.mpr ⟨hp, hflag⟩)

/-- A policy-suspended process for the C4 witness. -/
def pSusC4 : PInfo :=
  { pid := 300, uid := 1000, comm := "chrome".toList, ut := 0, st := 0,
    cpu_pct := 0, rss_kb := 100000, nicev := 0, running := false,
    suspended_by_manager := true }

/-- The enabled auto-manage state of the C4 witness. -/
def sC4 : AMState := ⟨true, [pSusC4]⟩

/-- C4 witness: disabling from sC4 turns the flag off, leaves zero flagged
entries, and sends pid 300 a continue signal. -/
theorem c4_witness :
    (toggle_auto_manage sC4).1.enabled = false
    ∧ ((toggle_auto_manage sC4).1.procs.filter fun p => p.suspended_by_manager).length = 0
    ∧ (300 : Nat) ∈ (toggle_auto_manage sC4).2 := by
  have h := c4_disable_resumes_all sC4 rfl
  exact ⟨h.1, h.2.2.1, h.2.2.2 pSusC4 (by decide) rfl⟩

/-- The whole-table state the main loop sees: the current table and the
scanner's static previous-table state.  resume_suspended mutates only the
current table; the scanner's snapshot is replaced only at the end of a
scan. -/
structure Sys where
  procs : List PInfo
  scanSt : ScanState

/-- A scan step at the system level (read_cpu_totals + scan_processes in
the main loop): the table and the scanner snapshot are both replaced. -/
def sysScan (tps : Nat) (sys : Sys) (now : Int) (rs : List Reading) : Sys :=
  { procs := (scan_processes tps sys.scanSt now rs).1,
    scanSt := (scan_processes tps sys.scanSt now rs).2 }

/-- A resume-all at the system level ('R' key or disable): resume_suspended
runs on the current table only; the scanner snapshot is untouched. -/
def sysResume (sys : Sys) : Sys × List Nat :=
  ({ procs := (resume_suspended sys.procs).1, scanSt := sys.scanSt },
   (resume_suspended sys.procs).2)

/-- One proc-timer iteration of the main loop (bruh2.c lines 1633-1643):
scan_processes first — which replaces the scanner snapshot at its end —
then manage_resources, which flags only the live table (the snapshot is a
static local of scan_processes and is out of its reach). -/
def sysTick (plist : List (List Char)) (enabled : Bool) (killOk : Nat → Bool)
    (tps : Nat) (sys : Sys) (now : Int) (rs : List Reading) : Sys :=
  let s1 := sysScan tps sys now rs
  { procs := (manage_resources plist enabled killOk s1.procs).1,
    scanSt := s1.scanSt }

/-- The events that touch the table between renders: a proc tick (with the
priority list, enabled flag, kill-send outcomes, clock and readings in
effect), or a resume-all ('R' key, or the disable path of 'T'). -/
inductive SysEv where
  | tick (plist : List (List Char)) (enabled : Bool) (killOk : Nat → Bool)
      (now : Int) (rs : List Reading)
  | resumeAll

/-- One event applied to the system state. -/
def sysStep (tps : Nat) (sys : Sys) : SysEv → Sys
  | SysEv.tick plist enabled killOk now rs => sysTick plist enabled killOk tps sys now rs
  | SysEv.resumeAll => (sysResume sys).1

/-- A run of the main loop: fold the events over a starting state. -/
def sysRun (tps : Nat) (evs : List SysEv) (sys : Sys) : Sys :=
  evs.foldl (sysStep tps) sys

/-- System state at program start: empty table, zeroed scanner statics. -/
def sysInit : Sys := ⟨[], ⟨[], 0⟩⟩

lemma mkProc_flag_clean (prevT : List PInfo) (tdiff : Int) (tps : Nat) (r : Reading)
    (h : ∀ q ∈ prevT, q.suspended_by_manager = false) :
    (mkProc prevT tdiff tps r).suspended_by_manager = false := by
  unfold mkProc
  cases hfind : prevT.find? (fun q => q.pid == r.pid) with
  | none => rfl
  | some q => exact h q (List.mem_of_find?_eq_some hfind)

lemma sysStep_prev_clean (tps : Nat) (sys : Sys) (ev : SysEv)
    (h : ∀ q ∈ sys.scanSt.prev, q.suspended_by_manager = false) :
    ∀ q ∈ (sysStep tps sys ev).scanSt.prev, q.suspended_by_manager = false := by
  cases ev with
  | tick plist enabled killOk now rs =>
      intro q' hq'
      simp only [sysStep, sysTick, sysScan, scan_processes, List.mem_map] at hq'
      obtain ⟨r, hr, hre⟩ := hq'
      subst hre
      exact mkProc_flag_clean _ _ _ _ h
  | resumeAll =>
      intro q' hq'
      simp only [sysStep, sysResume] at hq'
      exact h q' hq'

lemma sysRun_prev_clean (tps : Nat) (evs : List SysEv) :
    ∀ (sys : Sys), (∀ q ∈ sys.scanSt.prev, q.suspended_by_manager = false) →
      ∀ q ∈ (sysRun tps evs sys).scanSt.prev, q.suspended_by_manager = false := by
  induction evs with
  | nil => intro sys h; exact h
  | cons ev rest ih =>
      intro sys h
      exact ih (sysStep tps sys ev) (sysStep_prev_clean tps sys ev h)

/-- The priority list of the C10 scenario. -/
def plistC10x : List (List Char) := ["ffmpeg".toList]

/-- The running priority reading of the C10 scenario. -/
def rFfmC10 : Reading := ⟨100, "ffmpeg".toList, 0, 0, 0, true, 1000, 1000⟩

/-- The non-root, non-critical reading over the memory threshold of the
C10 scenario. -/
def rChrC10 : Reading := ⟨200, "chrome".toList, 0, 0, 0, true, 1000, 600000⟩

/-- The first proc tick of the C10 scenario: auto-management enabled, every
kill send succeeding. -/
def evC10 : SysEv := SysEv.tick plistC10x true (fun _ => true) 1000 [rFfmC10, rChrC10]

/-- The reachable state after the first proc tick of the C10 scenario:
chrome is flagged in the live table, but not in the scanner snapshot. -/
def s1C10 : Sys := sysRun 100 [evC10] sysInit

/-- The chrome record as the scanner snapshot holds it (never flagged). -/
def qChrSnap : PInfo :=
  { pid := 200, uid := 1000, comm := "chrome".toList, ut := 0, st := 0,
    cpu_pct := 0, rss_kb := 600000, nicev := 0, running := true,
    suspended_by_manager := false }

/-- C10 counterexample: a concrete reachable execution from program start.
After one proc tick the policy pass has flagged chrome (pid 200) in the
live table; the resume-all between the two scans sends pid 200 the
continue signal and clears the table; pid 200 is read again by the next
scan, yet that scan leaves its flag false and the flagged count is zero —
the flag is dropped, not restored, refuting the claim. -/
theorem c10_counterexample :
    ((s1C10.procs.filter fun p => p.suspended_by_manager).map fun p => p.pid) = [200]
    ∧ (sysResume s1C10).2 = [200]
    ∧ (((sysResume s1C10).1.procs.filter fun p => p.suspended_by_manager).length = 0)
    ∧ ((sysScan 100 (sysResume s1C10).1 2500 [rFfmC10, rChrC10]).procs.map
        fun p => p.pid) = [100, 200]
    ∧ (((sysScan 100 (sysResume s1C10).1 2500 [rFfmC10, rChrC10]).procs.filter
        fun p => p.pid == 200).map fun p => p.suspended_by_manager) = [false]
    ∧ ((sysScan 100 (sysResume s1C10).1 2500 [rFfmC10, rChrC10]).procs.filter
        fun p => p.suspended_by_manager).length = 0 := by
  refine ⟨?_, ?_, ?_, ?_, ?_, ?_⟩ <;> decide

/-- C10 (amended): for a PID present in two successive scans the new
record's flag is indeed copied from the scanner's previous-scan snapshot
(first conjunct), but that snapshot is replaced at the end of the scan,
before the policy pass flags anything, so in every state reachable from
program start the snapshot holds no flagged record (second conjunct);
hence after a resume-all clears the current table between two scans, the
next scan leaves the flag false for every PID — also those present in both
scans — and the flagged count is zero, the policy flags being dropped by
the next scan rather than restored. -/
theorem c10_snapshot_never_flagged (tps : Nat) (evs : List SysEv) (now : Int)
    (rs : List Reading) (prevT : List PInfo) (tdiff : Int) (r : Reading) (q : PInfo)
    (hfind : prevT.find? (fun x => x.pid == r.pid) = some q) :
    (mkProc prevT tdiff tps r).suspended_by_manager = q.suspended_by_manager
    ∧ (∀ q' ∈ (sysRun tps evs sysInit).scanSt.prev, q'.suspended_by_manager = false)
    ∧ (∀ p ∈ (sysScan tps (sysResume (sysRun tps evs sysInit)).1 now rs).procs,
        p.suspended_by_manager = false)
    ∧ ((sysScan tps (sysResume (sysRun tps evs sysInit)).1 now rs).procs.filter
        fun p => p.suspended_by_manager).length = 0 := by
  have hcopy : (mkProc prevT tdiff tps r).suspended_by_manager =
      q.suspended_by_manager := by
    unfold mkProc
    rw [hfind]
  have hclean : ∀ q' ∈ (sysRun tps evs sysInit).scanSt.prev,
      q'.suspended_by_manager = false :=
    sysRun_prev_clean tps evs sysInit (by intro q' hq'; simp [sysInit] at hq')
  have hscan : ∀ p ∈ (sysScan tps (sysResume (sysRun tps evs sysInit)).1 now rs).procs,
      p.suspended_by_manager = false := by
    intro p hp
    simp only [sysScan, sysResume, scan_processes, List.mem_map] at hp
    obtain ⟨r', hr', hre⟩ := hp
    subst hre
    exact mkProc_flag_clean _ _ _ _ hclean
  refine ⟨hcopy, hclean, hscan, ?_⟩
  rw [List.length_eq_zero, List.filter_eq_nil_iff]
  intro p hp
  simp [hscan p hp]

/-- C10 witness: in the concrete scenario, the next scan's record for pid
200 copies the snapshot's false flag, and the flagged count after that
scan is zero. -/
theorem c10_witness :
    (mkProc s1C10.scanSt.prev 1500 100 rChrC10).suspended_by_manager
        = qChrSnap.suspended_by_manager
    ∧ ((sysScan 100 (sysResume s1C10).1 2500 [rFfmC10, rChrC10]).procs.filter
        fun p => p.suspended_by_manager).length = 0 := by
  have h := c10_snapshot_never_flagged 100 [evC10] 2500 [rFfmC10, rChrC10]
    s1C10.scanSt.prev 1500 rChrC10 qChrSnap (by decide)
  exact ⟨h.1, h.2.2.2⟩

/-- The two process-control signals act_kill can send. -/
inductive Signal where
  | sigterm
  | sigkill
deriving DecidableEq

/-- act_kill (bruh2.c lines 1565-1570), with the outcome of each signal
send given by the oracle sendOk: if the SIGTERM send succeeds the function
returns at once; otherwise it sleeps 200 ms and sends SIGKILL.  The result
is the sequence of signals sent. -/
def act_kill (sendOk : Signal → Bool) : List Signal :=
  if sendOk Signal.sigterm then [Signal.sigterm]
  else [Signal.sigterm, Signal.sigkill]

/-- C9 counterexample: when the graceful SIGTERM send succeeds, act_kill
sends only SIGTERM and never the forceful SIGKILL, refuting the claim that
a successful graceful send is followed unconditionally by SIGKILL after
the delay. -/
theorem c9_counterexample :
    act_kill (fun _ => true) = [Signal.sigterm]
    ∧ Signal.sigkill ∉ act_kill (fun _ => true) := by
  refine ⟨rfl, ?_⟩
  decide

/-- C9 (amended): act_kill always sends the graceful SIGTERM first and
always returns (success); when that send succeeds it escalates no further,
and when it fails it waits the fixed delay and then sends SIGKILL. -/
theorem c9_amended_two_phase (sendOk : Signal → Bool) :
    (sendOk Signal.sigterm = true → act_kill sendOk = [Signal.sigterm])
    ∧ (sendOk Signal.sigterm = false →
        act_kill sendOk = [Signal.sigterm, Signal.sigkill]) := by
  constructor
  · intro h
    unfold act_kill
    rw [if_pos h]
  · intro h
    unfold act_kill
    rw [if_neg (by simp [h])]

/-- C9 witness: with every send failing, act_kill sends SIGTERM then
SIGKILL. -/
theorem c9_witness :
    act_kill (fun _ => false) = [Signal.sigterm, Signal.sigkill] :=
  (c9_amended_two_phase (fun _ => false)).2 rfl

end Bruh2
